import Mathlib

/-!
Verification of the risk-based transaction sampling engine and the
surrounding web UI helpers of the Audit_Tool_Crew repository.

The repository ships only the browser-side JavaScript of its tools; the
Python sampling engine (Normalizer, RiskScorer, SampleSelector,
FindingsTracker) is described by the specification but its source is not
part of the repository snapshot.  Definitions for those components are
therefore modelled from the specification text and are marked as such in
their doc comments.  The JavaScript helpers (`validateFileUpload`,
`uploadFiles`, `sortTable`) are translated directly from the source files.
-/

/-- Characters of a string, used to model JavaScript strings where we need
character-level operations. -/
def chars (s : String) : List Char := s.toList

/-- Lower-case every character (model of JavaScript `toLowerCase`). -/
def lowerChars (s : List Char) : List Char := s.map Char.toLower

/-- Model of JavaScript `String.prototype.trim`: drop leading and trailing
whitespace. -/
def trimChars (s : List Char) : List Char :=
  ((s.dropWhile Char.isWhitespace).reverse.dropWhile Char.isWhitespace).reverse

/-- Numeric value of a list of decimal digit characters, most significant
first. -/
def digitsVal (l : List Char) : Nat :=
  l.foldl (fun acc c => 10 * acc + (c.toNat - 48)) 0

/-- Modelled from the spec: the canonical `Transaction` record produced by
the Normalizer (§3 DATA MODEL); the Python implementation is not in the
repository snapshot. -/
structure Transaction where
  id : Nat
  date : Nat
  account : List Char
  description : List Char
  amount : Rat
  debit : Option Rat
  credit : Option Rat
  preparer : List Char
  sourceRef : Nat
deriving DecidableEq, Repr

/-- Modelled from the spec: the ordered risk enum (§3). -/
inductive RiskLevel
  | low
  | medium
  | high
  | critical
deriving DecidableEq, Repr

/-- Modelled from the spec: the three ascending boundaries separating the
four risk bands (§6 `risk_band_boundaries`). -/
structure RiskBands where
  b1 : Rat
  b2 : Rat
  b3 : Rat
deriving DecidableEq, Repr

/-- Modelled from the spec: risk level as a deterministic function of the
score via the fixed threshold table; a score exactly on a boundary belongs
to the higher band (§4.3).  The Python implementation is not in the
repository snapshot. -/
def riskLevelOf (bands : RiskBands) (score : Rat) : RiskLevel :=
  if bands.b3 ≤ score then .critical
  else if bands.b2 ≤ score then .high
  else if bands.b1 ≤ score then .medium
  else .low

/-- File record as seen by the browser upload validator
(`src/AuditTool/static/js/main.js`, `validateFileUpload`). -/
structure UploadFile where
  size : Nat
  mime : String
deriving DecidableEq, Repr

/-- The mutable `value` of the file `<input>` element. -/
structure InputState where
  value : String
deriving DecidableEq, Repr

/-- `16 * 1024 * 1024` from `validateFileUpload`. -/
def maxUploadSize : Nat := 16 * 1024 * 1024

/-- The `allowedTypes` array of `validateFileUpload`. -/
def allowedMimeTypes : List String :=
  ["application/vnd.openxmlformats-officedocument.spreadsheetml.sheet",
   "application/vnd.ms-excel"]

/-- Translation of `validateFileUpload(file, input)` from
`src/AuditTool/static/js/main.js` lines 34-56: returns the boolean result
together with the input element state after the call. -/
def validateFileUpload (file : UploadFile) (input : InputState) :
    Bool × InputState :=
  if maxUploadSize < file.size then
    (false, { value := "" })
  else if !(allowedMimeTypes.contains file.mime) then
    (false, { value := "" })
  else
    (true, input)

/-- Modelled from the spec: the population-wide snapshot used by the
RiskScorer (§3, §4.2); the Python implementation is not in the repository
snapshot. -/
structure PopulationStats where
  totalCount : Nat
  totalAmount : Rat
  p99 : Rat
  accountFreq : List (List Char × Nat)
  preparerFreq : List (List Char × Nat)
deriving DecidableEq, Repr

/-- Modelled from the spec: the rule configuration (weights, keyword list,
sensitive window, rarity threshold, band boundaries) of §4.3 and §6. -/
structure RuleConfig where
  keywords : List (List Char)
  keywordWeight : Rat
  windowStart : Nat
  windowEnd : Nat
  timingWeight : Rat
  outlierWeight : Rat
  roundFloor : Rat
  rarityThreshold : Nat
  frequencyWeight : Rat
  bands : RiskBands
deriving DecidableEq, Repr

/-- Modelled from the spec: one RiskAssessment per transaction (§3). -/
structure RiskAssessment where
  transactionId : Nat
  score : Rat
  triggeredRules : List String
  riskLevel : RiskLevel
deriving DecidableEq, Repr

/-- Frequency of a key in a per-account or per-preparer frequency table. -/
def lookupFreq (table : List (List Char × Nat)) (key : List Char) : Nat :=
  match table.find? (fun kv => kv.1 == key) with
  | some kv => kv.2
  | none => 0

/-- Modelled from the spec: keyword rule — the description matches any
configured suspicious term, case-insensitive substring, capped at one hit
(§4.3). -/
def keywordHit (cfg : RuleConfig) (t : Transaction) : Bool :=
  cfg.keywords.any (fun k =>
    decide (lowerChars k <:+: lowerChars t.description))

/-- Modelled from the spec: timing rule — the date falls in the configured
sensitive window (§4.3). -/
def timingHit (cfg : RuleConfig) (t : Transaction) : Bool :=
  decide (cfg.windowStart ≤ t.date) && decide (t.date ≤ cfg.windowEnd)

/-- Modelled from the spec: suspiciously-round amount — an exact multiple
of 1000 above a configured floor (§4.3). -/
def roundAmountHit (cfg : RuleConfig) (t : Transaction) : Bool :=
  decide (cfg.roundFloor ≤ |t.amount|) && decide ((|t.amount| / 1000).den = 1)

/-- Modelled from the spec: amount-outlier rule — |amount| above the
population percentile, degrading to "never fires" on an empty population,
or suspiciously round (§4.3). -/
def outlierHit (cfg : RuleConfig) (stats : PopulationStats)
    (t : Transaction) : Bool :=
  (decide (0 < stats.totalCount) && decide (stats.p99 < |t.amount|)) ||
    roundAmountHit cfg t

/-- Modelled from the spec: frequency rule — preparer or account appears
below the rarity threshold (§4.3). -/
def frequencyHit (cfg : RuleConfig) (stats : PopulationStats)
    (t : Transaction) : Bool :=
  decide (lookupFreq stats.preparerFreq t.preparer < cfg.rarityThreshold) ||
    decide (lookupFreq stats.accountFreq t.account < cfg.rarityThreshold)

/-- Modelled from the spec: the score is the sum of the weights of all
triggered rules (§4.3). -/
def scoreVal (t : Transaction) (stats : PopulationStats)
    (cfg : RuleConfig) : Rat :=
  (if keywordHit cfg t then cfg.keywordWeight else 0) +
  (if timingHit cfg t then cfg.timingWeight else 0) +
  (if outlierHit cfg stats t then cfg.outlierWeight else 0) +
  (if frequencyHit cfg stats t then cfg.frequencyWeight else 0)

/-- Modelled from the spec: `score(transaction, populationStats,
ruleConfig) → RiskAssessment`, a pure function (§4.3); the Python
implementation is not in the repository snapshot. -/
def scoreTxn (t : Transaction) (stats : PopulationStats)
    (cfg : RuleConfig) : RiskAssessment :=
  { transactionId := t.id
    score := scoreVal t stats cfg
    triggeredRules :=
      (if keywordHit cfg t then ["keyword"] else []) ++
      (if timingHit cfg t then ["timing"] else []) ++
      (if outlierHit cfg stats t then ["amount_outlier"] else []) ++
      (if frequencyHit cfg stats t then ["frequency"] else [])
    riskLevel := riskLevelOf cfg.bands (scoreVal t stats cfg) }

/-- Scoring a whole population: a map of the pure scoring function. -/
def scoreAll (l : List Transaction) (stats : PopulationStats)
    (cfg : RuleConfig) : List RiskAssessment :=
  l.map (fun t => scoreTxn t stats cfg)

/-- Modelled from the spec: the reason a transaction entered the sample
(§3 Sample.members). -/
inductive Reason
  | above_materiality
  | high_risk
  | random_fill
deriving DecidableEq, Repr

/-- Modelled from the spec: the sampling policy (§6). -/
structure SamplingPolicy where
  materialityThreshold : Rat
  coverageTarget : Rat
  randomSeed : Nat
deriving DecidableEq, Repr

/-- Modelled from the spec: the Sample — ordered member sequence tagged
with inclusion reasons, plus the under-coverage warning flag of §4.4
step 3. -/
structure Sample where
  members : List (Nat × Reason)
  warning : Bool
deriving DecidableEq, Repr

/-- Risk level recorded for a transaction id in the assessment list;
a transaction without an assessment is treated as low risk. -/
def riskOf (assessments : List RiskAssessment) (tid : Nat) : RiskLevel :=
  match assessments.find? (fun a => a.transactionId == tid) with
  | some a => a.riskLevel
  | none => .low

/-- High or critical. -/
def isHighRisk (lv : RiskLevel) : Bool :=
  lv == .high || lv == .critical

/-- Modelled from the spec: mandatory-inclusion criterion of §4.4 step 1 —
amount at or above the materiality threshold, or high/critical risk. -/
def mandatoryB (p : SamplingPolicy) (assessments : List RiskAssessment)
    (t : Transaction) : Bool :=
  decide (p.materialityThreshold ≤ t.amount) ||
    isHighRisk (riskOf assessments t.id)

/-- Modelled from the spec: a transaction satisfying both criteria is
stored with the higher-priority reason `above_materiality` (§4.4
step 1). -/
def reasonOf (p : SamplingPolicy) (t : Transaction) : Reason :=
  if p.materialityThreshold ≤ t.amount then .above_materiality
  else .high_risk

/-- Modelled from the spec: the mandatory-pass tie-break order — amount
descending, then transaction id ascending (§4.4 step 4). -/
def mandLE (a b : Transaction) : Prop :=
  b.amount < a.amount ∨ (a.amount = b.amount ∧ a.id ≤ b.id)

instance : DecidableRel mandLE := fun a b => by
  unfold mandLE
  infer_instance

instance : IsTotal Transaction mandLE := by
  constructor
  intro a b
  rcases lt_trichotomy a.amount b.amount with h | h | h
  · exact Or.inr (Or.inl h)
  · rcases Nat.le_total a.id b.id with hid | hid
    · exact Or.inl (Or.inr ⟨h, hid⟩)
    · exact Or.inr (Or.inr ⟨h.symm, hid⟩)
  · exact Or.inl (Or.inl h)

instance : IsTrans Transaction mandLE := by
  constructor
  intro a b c hab hbc
  rcases hab with h1 | ⟨h1, h1'⟩
  · rcases hbc with h2 | ⟨h2, _⟩
    · exact Or.inl (h2.trans h1)
    · exact Or.inl (h2 ▸ h1)
  · rcases hbc with h2 | ⟨h2, h2'⟩
    · exact Or.inl (h1 ▸ h2)
    · exact Or.inr ⟨h1.trans h2, h1'.trans h2'⟩

/-- Strict version of the mandatory-pass order, used to state that the
ordering of the mandatory members is uniquely determined. -/
def mandLT (a b : Transaction) : Prop :=
  b.amount < a.amount ∨ (a.amount = b.amount ∧ a.id < b.id)

instance : IsAntisymm Transaction mandLT := by
  constructor
  intro a b hab hba
  exfalso
  rcases hab with h1 | ⟨h1, h1'⟩
  · rcases hba with h2 | ⟨h2, _⟩
    · exact absurd h1 (lt_asymm h2)
    · exact absurd h1 (h2 ▸ lt_irrefl _)
  · rcases hba with h2 | ⟨h2, h2'⟩
    · exact absurd h2 (h1 ▸ lt_irrefl _)
    · exact absurd h1' (Nat.lt_asymm h2')

/-- Modelled from the spec: the seeded pseudo-random key driving the
supplemental-fill permutation (§4.4 step 3); modelled as a linear
congruential hash of the seed and the transaction id. -/
def permKey (seed : Nat) (t : Transaction) : Nat :=
  (1103515245 * (seed + t.id) + 12345) % 2147483648

/-- Order of the seeded pseudo-random permutation, with the transaction id
as deterministic tie-break. -/
def fillLE (seed : Nat) (a b : Transaction) : Prop :=
  permKey seed a < permKey seed b ∨
    (permKey seed a = permKey seed b ∧ a.id ≤ b.id)

instance : ∀ seed, DecidableRel (fillLE seed) := fun seed a b => by
  unfold fillLE
  infer_instance

instance : ∀ seed, IsTotal Transaction (fillLE seed) := fun seed => by
  constructor
  intro a b
  rcases lt_trichotomy (permKey seed a) (permKey seed b) with h | h | h
  · exact Or.inl (Or.inl h)
  · rcases Nat.le_total a.id b.id with hid | hid
    · exact Or.inl (Or.inr ⟨h, hid⟩)
    · exact Or.inr (Or.inr ⟨h.symm, hid⟩)
  · exact Or.inr (Or.inl h)

instance : ∀ seed, IsTrans Transaction (fillLE seed) := fun seed => by
  constructor
  intro a b c hab hbc
  rcases hab with h1 | ⟨h1, h1'⟩
  · rcases hbc with h2 | ⟨h2, _⟩
    · exact Or.inl (h1.trans h2)
    · exact Or.inl (lt_of_lt_of_eq h1 h2)
  · rcases hbc with h2 | ⟨h2, h2'⟩
    · exact Or.inl (lt_of_eq_of_lt h1 h2)
    · exact Or.inr ⟨h1.trans h2, h1'.trans h2'⟩

/-- Total absolute dollar value of a list of transactions. -/
def absSum (l : List Transaction) : Rat :=
  (l.map (fun t => |t.amount|)).sum

/-- Modelled from the spec: the supplemental-fill loop of §4.4 step 3 —
walk the permuted remaining population, taking items until the covered
amount reaches the target or the population is exhausted.  Returns the
taken transactions in order. -/
def fillTake (targetAmt : Rat) : Rat → List Transaction → List Transaction
  | _, [] => []
  | covered, t :: rest =>
      if targetAmt ≤ covered then []
      else t :: fillTake targetAmt (covered + |t.amount|) rest

/-- The mandatory-inclusion set (as a filtered list, in input order). -/
def mandList (ts : List Transaction) (assessments : List RiskAssessment)
    (p : SamplingPolicy) : List Transaction :=
  ts.filter (mandatoryB p assessments)

/-- The mandatory set sorted by amount descending then id ascending. -/
def sortedMand (ts : List Transaction) (assessments : List RiskAssessment)
    (p : SamplingPolicy) : List Transaction :=
  List.insertionSort mandLE (mandList ts assessments p)

/-- Dollar value covered by the mandatory set. -/
def coveredMand (ts : List Transaction) (assessments : List RiskAssessment)
    (p : SamplingPolicy) : Rat :=
  absSum (mandList ts assessments p)

/-- The coverage target expressed in dollars. -/
def targetAmt (ts : List Transaction) (p : SamplingPolicy) : Rat :=
  p.coverageTarget * absSum ts

/-- The non-mandatory remainder arranged in the seeded pseudo-random
permutation order. -/
def restOrder (ts : List Transaction) (assessments : List RiskAssessment)
    (p : SamplingPolicy) : List Transaction :=
  List.insertionSort (fillLE p.randomSeed)
    (ts.filter (fun t => !(mandatoryB p assessments t)))

/-- The transactions drawn by the supplemental fill. -/
def fillTaken (ts : List Transaction) (assessments : List RiskAssessment)
    (p : SamplingPolicy) : List Transaction :=
  fillTake (targetAmt ts p) (coveredMand ts assessments p)
    (restOrder ts assessments p)

/-- Dollar value covered by the whole sample. -/
def finalCovered (ts : List Transaction) (assessments : List RiskAssessment)
    (p : SamplingPolicy) : Rat :=
  coveredMand ts assessments p + absSum (fillTaken ts assessments p)

/-- Modelled from the spec: `select(transactions, assessments, policy) →
Sample` (§4.4); the Python implementation is not in the repository
snapshot.  Mandatory pass, deterministic tie-break, coverage check,
seeded supplemental fill, under-coverage warning flag. -/
def selectSample (ts : List Transaction)
    (assessments : List RiskAssessment) (p : SamplingPolicy) : Sample :=
  { members :=
      (sortedMand ts assessments p).map (fun t => (t.id, reasonOf p t)) ++
        (fillTaken ts assessments p).map (fun t => (t.id, Reason.random_fill))
    warning := decide (finalCovered ts assessments p < targetAmt ts p) }

/-- Extensional description of a run of the selector: the members are some
arrangement of the mandatory set that is strictly sorted by the §4.4
tie-break, followed by the supplemental fill, with the under-coverage
flag.  Used to state that any two runs agree. -/
def Selects (ts : List Transaction) (assessments : List RiskAssessment)
    (p : SamplingPolicy) (s : Sample) : Prop :=
  ∃ m : List Transaction,
    m.Perm (mandList ts assessments p) ∧
    m.Pairwise mandLT ∧
    s = { members :=
            m.map (fun t => (t.id, reasonOf p t)) ++
              (fillTaken ts assessments p).map
                (fun t => (t.id, Reason.random_fill))
          warning :=
            decide (finalCovered ts assessments p < targetAmt ts p) }

/-- Absolute amount of the transaction carrying a given id (0 when the id
does not occur); used to state coverage of a sample. -/
def absAmountOf (ts : List Transaction) (tid : Nat) : Rat :=
  match ts.find? (fun u => u.id == tid) with
  | some t => |t.amount|
  | none => 0

/-- Total absolute dollar value of the members of a sample, resolved
against the population. -/
def memberValue (ts : List Transaction) (s : Sample) : Rat :=
  (s.members.map (fun m => absAmountOf ts m.1)).sum

/-- Modelled from the spec: the per-sampled-item review states (§4.5);
the Python implementation is not in the repository snapshot. -/
inductive FState
  | selected
  | requestedDocumentation
  | underReview
  | exceptionNoted
  | cleared
  | closed
deriving DecidableEq, Repr

/-- Position of a state along the linear review order
`Selected → RequestedDocumentation → UnderReview →
(ExceptionNoted | Cleared) → Closed` (§4.5). -/
def stage : FState → Nat
  | .selected => 0
  | .requestedDocumentation => 1
  | .underReview => 2
  | .exceptionNoted => 3
  | .cleared => 3
  | .closed => 4

/-- Modelled from the spec: the transitions the tracker accepts (§4.5). -/
def allowedStep : FState → FState → Bool
  | .selected, .requestedDocumentation => true
  | .requestedDocumentation, .underReview => true
  | .underReview, .exceptionNoted => true
  | .underReview, .cleared => true
  | .exceptionNoted, .closed => true
  | .cleared, .closed => true
  | _, _ => false

/-- Errors raised by the FindingsTracker (§4.5, §7). -/
inductive TransitionError
  | invalidTransition
  | emptyExceptionNotes
deriving DecidableEq, Repr

/-- Modelled from the spec: the lifecycle record per sampled transaction
(§3 Finding). -/
structure Finding where
  transactionId : Nat
  state : FState
  exceptionNotes : List Char
  closedAt : Option Nat
deriving DecidableEq, Repr

/-- Modelled from the spec: a single FindingsTracker transition (§4.5) —
only the next step of the linear order is accepted, entering
`ExceptionNoted` requires non-empty notes, anything else fails with
`InvalidTransition`; the Python implementation is not in the repository
snapshot. -/
def applyTransition (f : Finding) (target : FState) (notes : List Char)
    (now : Nat) : Except TransitionError Finding :=
  if allowedStep f.state target then
    if target == .exceptionNoted && notes.isEmpty then
      .error .emptyExceptionNotes
    else
      .ok { f with
              state := target
              exceptionNotes :=
                if target == .exceptionNoted then notes else f.exceptionNotes
              closedAt :=
                if target == .closed then some now else f.closedAt }
  else
    .error .invalidTransition

/-- A loosely-typed input row: a mapping of column name to raw value
(§4.1). -/
def IngestRow : Type := List (List Char × List Char)

/-- Modelled from the spec: Normalizer configuration — the minimum viable
fraction of parseable rows (§4.1 Failure, §7). -/
structure IngestConfig where
  maxRejectFraction : Rat
deriving DecidableEq, Repr

/-- A collected row-level warning: the source row index plus a message
(§4.1, §7 IngestionError). -/
structure RowWarning where
  rowIndex : Nat
  message : String
deriving DecidableEq, Repr

/-- The fatal whole-batch error of §7. -/
inductive IngestFailure
  | ingestionAborted
deriving DecidableEq, Repr

/-- Modelled from the spec: the known-synonym table for the `date`
column (§4.1). -/
def dateSynonyms : List (List Char) :=
  [chars "date", chars "txn date", chars "posting date",
   chars "transaction date"]

/-- Modelled from the spec: the known-synonym table for the `account`
column (§4.1). -/
def accountSynonyms : List (List Char) :=
  [chars "account", chars "account name", chars "account code", chars "acct"]

/-- Modelled from the spec: the known-synonym table for the `amount`
column (§4.1). -/
def amountSynonyms : List (List Char) :=
  [chars "amount", chars "net amount", chars "value", chars "total"]

/-- Exact-name column lookup. -/
def getCol (row : IngestRow) (name : List Char) : Option (List Char) :=
  (row.find? (fun kv => kv.1 == name)).map (fun kv => kv.2)

/-- Modelled from the spec: column resolution — exact-name match first,
then case-insensitive match against the synonym table (§4.1). -/
def resolveCol (row : IngestRow) (canonical : List Char)
    (syns : List (List Char)) : Option (List Char) :=
  match getCol row canonical with
  | some v => some v
  | none =>
      (row.find? (fun kv => syns.contains (lowerChars kv.1))).map
        (fun kv => kv.2)

/-- Strict decimal parser: optional minus sign, digits, optional fraction;
the whole string must be consumed and at least one digit present. -/
def parseDecimal (s : List Char) : Option Rat :=
  let signed := match s with
    | '-' :: r => (true, r)
    | _ => (false, s)
  let ip := signed.2.takeWhile Char.isDigit
  let r1 := signed.2.dropWhile Char.isDigit
  let core : Option Rat :=
    match r1 with
    | [] => if ip.isEmpty then none else some ((digitsVal ip : Rat))
    | '.' :: fp0 =>
        let fp := fp0.takeWhile Char.isDigit
        let r2 := fp0.dropWhile Char.isDigit
        if r2.isEmpty && !(ip.isEmpty && fp.isEmpty) then
          some ((digitsVal ip : Rat) + (digitsVal fp : Rat) / 10 ^ fp.length)
        else none
    | _ => none
  core.map (fun v => if signed.1 then -v else v)

/-- Modelled from the spec: amount coercion — currency symbols and
thousands separators are stripped, parentheses denote negatives (§4.1). -/
def parseAmount (s : List Char) : Option Rat :=
  let t := trimChars s
  let stripped := fun l => List.filter (fun c => !(c == '$' || c == ',')) l
  match t with
  | '(' :: rest =>
      if rest.getLast? == some ')' then
        (parseDecimal (stripped rest.dropLast)).map (fun v => -v)
      else none
  | _ => parseDecimal (stripped t)

/-- Modelled from the spec: date coercion — the digits of the raw value
form the day code; a value without digits is unparsable (§4.1). -/
def parseDate (s : List Char) : Option Nat :=
  let ds := (trimChars s).filter Char.isDigit
  if ds.isEmpty then none else some (digitsVal ds)

/-- Data extracted from one successfully normalized row, before the
sequential id is attached. -/
structure RowData where
  date : Nat
  account : List Char
  description : List Char
  amount : Rat
  preparer : List Char
deriving DecidableEq, Repr

/-- Modelled from the spec: per-row normalization — unresolved required
columns (date, account, amount) or unparsable values reject the row with
a warning message (§4.1). -/
def parseRow (row : IngestRow) : Except String RowData :=
  match resolveCol row (chars "date") dateSynonyms with
  | none => .error "missing required column: date"
  | some rawDate =>
    match resolveCol row (chars "account") accountSynonyms with
    | none => .error "missing required column: account"
    | some rawAccount =>
      match resolveCol row (chars "amount") amountSynonyms with
      | none => .error "missing required column: amount"
      | some rawAmount =>
        match parseDate rawDate with
        | none => .error "unparsable date"
        | some d =>
          if (trimChars rawAccount).isEmpty then
            .error "empty account"
          else
            match parseAmount rawAmount with
            | none => .error "unparsable amount"
            | some amt =>
                .ok { date := d
                      account := trimChars rawAccount
                      description :=
                        (resolveCol row (chars "description")
                          [chars "description", chars "memo"]).getD []
                      amount := amt
                      preparer :=
                        (resolveCol row (chars "preparer")
                          [chars "preparer", chars "posted by"]).getD [] }

/-- Transaction assembled from a parsed row; ids are assigned
sequentially in input order (§4.1 Output ordering). -/
def mkTxn (i : Nat) (d : RowData) : Transaction :=
  { id := i
    date := d.date
    account := d.account
    description := d.description
    amount := d.amount
    debit := none
    credit := none
    preparer := d.preparer
    sourceRef := i }

/-- Walk the rows in order, assigning sequential ids, splitting them into
normalized transactions and collected per-row warnings. -/
def splitRows (i : Nat) : List IngestRow → List Transaction × List RowWarning
  | [] => ([], [])
  | r :: rest =>
      let acc := splitRows (i + 1) rest
      match parseRow r with
      | .ok d => (mkTxn i d :: acc.1, acc.2)
      | .error m => (acc.1, ⟨i, m⟩ :: acc.2)

/-- Whether a row parses (Bool projection of `parseRow`). -/
def exceptOk {ε α : Type} : Except ε α → Bool
  | .ok _ => true
  | .error _ => false

/-- Number of unparseable rows in a batch. -/
def rejectCount (rows : List IngestRow) : Nat :=
  (rows.filter (fun r => !exceptOk (parseRow r))).length

/-- Modelled from the spec: the whole Normalizer batch — fails fatally
with `IngestionAborted` exactly when the reject rate exceeds the
configured minimum viable fraction, otherwise returns the normalized rows
together with the collected warnings (§4.1 Failure, §7); the Python
implementation is not in the repository snapshot. -/
def normalizeBatch (rows : List IngestRow) (cfg : IngestConfig) :
    Except IngestFailure (List Transaction × List RowWarning) :=
  if cfg.maxRejectFraction * (rows.length : Rat) < (rejectCount rows : Rat)
  then .error .ingestionAborted
  else .ok (splitRows 0 rows)

/-- Outcome of `uploadSingleFile` for one file in the Securities Deposits
upload handler (`src/unnamed/part_000`): a parsed JSON response carrying
`processed_records` and an optional message, or a thrown error with an
optional message. -/
inductive UploadOutcome
  | ok (processedRecords : Nat) (message : Option String)
  | err (message : Option String)
deriving DecidableEq, Repr

/-- `processed_records` of an outcome (an error processes nothing). -/
def processedOf : UploadOutcome → Nat
  | .ok n _ => n
  | .err _ => 0

/-- `successCount` accumulated by the `uploadFiles` loop
(`src/unnamed/part_000` lines 117-148): files whose result had
`processed_records > 0`. -/
def successCount (files : List (String × UploadOutcome)) : Nat :=
  (files.filter (fun f => decide (0 < processedOf f.2))).length

/-- `totalDeposits` accumulated by the `uploadFiles` loop. -/
def totalDeposits (files : List (String × UploadOutcome)) : Nat :=
  ((files.filter (fun f => decide (0 < processedOf f.2))).map
    (fun f => processedOf f.2)).sum

/-- The `warnings` array accumulated by the `uploadFiles` loop: a file
with no deposits contributes `result.message || 'No deposits found'`, a
thrown error contributes `error.message || 'Upload failed'`. -/
def warningsOf (files : List (String × UploadOutcome)) :
    List (String × String) :=
  files.filterMap (fun f =>
    match f.2 with
    | .ok n m =>
        if 0 < n then none
        else some (f.1, m.getD "No deposits found")
    | .err m => some (f.1, m.getD "Upload failed"))

/-- The per-warning detail lines appended to the result message
(`src/unnamed/part_000` lines 161-166). -/
def detailLines (ws : List (String × String)) : String :=
  ws.foldl (fun acc w => acc ++ "\n• " ++ w.1 ++ ": " ++ w.2) ""

/-- The top-level success banner of `uploadFiles` (line 156). -/
def successBanner (sc td : Nat) : String :=
  "✅ Success! Processed " ++ toString sc ++ " file(s) with " ++
    toString td ++ " deposit(s)."

/-- The top-level info banner of `uploadFiles` (line 158), shown when no
file yielded deposits. -/
def infoBanner (n : Nat) : String :=
  "ℹ️ " ++ toString n ++
    " file(s) uploaded successfully, but no security deposits found."

/-- Translation of the result-message construction of `uploadFiles`
(`src/unnamed/part_000` lines 150-168): banner chosen by `successCount`,
warnings appended as detail lines. -/
def resultMessage (files : List (String × UploadOutcome)) : String :=
  let base :=
    if 0 < successCount files then
      successBanner (successCount files) (totalDeposits files)
    else
      infoBanner files.length
  if 0 < (warningsOf files).length then
    base ++ "\n\n📋 Details:\n" ++ detailLines (warningsOf files)
  else
    base

/-- A table body row: the text content of its cells. -/
def TableRow : Type := List (List Char)

/-- `row.cells[columnIndex].textContent.trim()` (a missing cell reads as
the empty string). -/
def cellText (row : TableRow) (idx : Nat) : List Char :=
  trimChars (row.getD idx [])

/-- `text.replace(/[^0-9.-]/g, '')` from `sortTable`
(`src/AuditTool/static/js/main.js` lines 390-391). -/
def stripNonNumeric (s : List Char) : List Char :=
  s.filter (fun c => c.isDigit || c == '.' || c == '-')

/-- Model of JavaScript `parseFloat`: parses the longest numeric prefix
(optional sign, integer digits, optional fraction); `none` models `NaN`.
Exponents cannot occur here because the input is already stripped to
`[0-9.-]`. -/
def jsParseFloat (s : List Char) : Option Rat :=
  let signed : Bool × List Char :=
    match s with
    | '-' :: r => (true, r)
    | '+' :: r => (false, r)
    | _ => (false, s)
  let ip := signed.2.takeWhile Char.isDigit
  let r1 := signed.2.dropWhile Char.isDigit
  let fp :=
    match r1 with
    | '.' :: rest => rest.takeWhile Char.isDigit
    | _ => []
  if ip.isEmpty && fp.isEmpty then none
  else
    let mag : Rat :=
      if fp.isEmpty then (digitsVal ip : Rat)
      else (digitsVal ip : Rat) + (digitsVal fp : Rat) / 10 ^ fp.length
    some (if signed.1 then -mag else mag)

/-- Lexicographic comparison of two character lists; models the ascending
order induced by `localeCompare` in the sort comparator. -/
def lexLe : List Char → List Char → Bool
  | [], _ => true
  | _ :: _, [] => false
  | a :: as, b :: bs => if a = b then lexLe as bs else decide (a < b)

/-- The comparator of `sortTable` (`src/AuditTool/static/js/main.js`
lines 385-398): numeric comparison when both stripped cell texts parse as
numbers, `localeCompare` otherwise. -/
def rowLEb (idx : Nat) (a b : TableRow) : Bool :=
  match jsParseFloat (stripNonNumeric (cellText a idx)),
        jsParseFloat (stripNonNumeric (cellText b idx)) with
  | some x, some y => decide (x ≤ y)
  | _, _ => lexLe (cellText a idx) (cellText b idx)

/-- The comparator as a relation. -/
def rowRel (idx : Nat) (a b : TableRow) : Prop :=
  rowLEb idx a b = true

instance : ∀ idx, DecidableRel (rowRel idx) := fun idx a b => by
  unfold rowRel
  infer_instance

/-- Translation of `sortTable(tableId, columnIndex)` from
`src/AuditTool/static/js/main.js` lines 378-401: the tbody rows are
sorted in place by the comparator and re-appended. -/
def sortTable (rows : List TableRow) (idx : Nat) : List TableRow :=
  List.insertionSort (rowRel idx) rows

/-- Transaction with only id and amount populated, for concrete test
populations. -/
def mkT (i : Nat) (amt : Rat) : Transaction :=
  { id := i, date := 0, account := [], description := [], amount := amt,
    debit := none, credit := none, preparer := [], sourceRef := i }

/-- The ten-transaction population of the spec's concrete scenario (§8). -/
def demoTs : List Transaction :=
  [mkT 0 50, mkT 1 120, mkT 2 9000, mkT 3 75, mkT 4 60, mkT 5 40,
   mkT 6 8000, mkT 7 30, mkT 8 20, mkT 9 10]

/-- A risk assessment fixing only the id and level. -/
def mkA (i : Nat) (lv : RiskLevel) : RiskAssessment :=
  { transactionId := i, score := 0, triggeredRules := [], riskLevel := lv }

/-- Assessments making the 9000 and 8000 entries critical (§8). -/
def demoA : List RiskAssessment := [mkA 2 .critical, mkA 6 .critical]

/-- The §8 scenario policy: materiality 5000, coverage target 0.6. -/
def demoP : SamplingPolicy :=
  { materialityThreshold := 5000, coverageTarget := 6/10, randomSeed := 42 }

/-- A row whose date/account/amount columns resolve and parse. -/
def demoRowOk : IngestRow :=
  [(chars "Date", chars "2024-01-05"), (chars "Account", chars "AP"),
   (chars "Amount", chars "$1,250")]

/-- A row with none of the required columns. -/
def demoRowBad : IngestRow := [(chars "foo", chars "bar")]

/-- A table row whose first cell strips to the number 90. -/
def demoRowA : TableRow := [chars "$90", chars "zz"]

/-- A table row whose first cell strips to the number 1100. -/
def demoRowB : TableRow := [chars "$1,100", chars "aa"]

/-- An upload run in which the single file upload threw an error. -/
def demoUploads : List (String × UploadOutcome) :=
  [("a.xlsx", .err (some "boom"))]

/-- The transaction `normalizeBatch` extracts from `demoRowOk`. -/
def demoTxnOk : Transaction :=
  mkTxn 0
    { date := 20240105, account := chars "AP", description := [],
      amount := 1250, preparer := [] }

/-- The warning `normalizeBatch` collects for `demoRowBad` at row 1. -/
def demoWarn : RowWarning :=
  { rowIndex := 1, message := "missing required column: date" }

deriving instance DecidableEq for Except

/-- C4: risk_level is a pure function of the score and the fixed threshold
table, partitioning the score axis into four contiguous bands
low < medium < high < critical, with boundaries inclusive-lower on the
higher band. -/
theorem risk_bands_partition (bands : RiskBands) (s : Rat)
    (h1 : bands.b1 ≤ bands.b2) (h2 : bands.b2 ≤ bands.b3) :
    (riskLevelOf bands s = .low ↔ s < bands.b1) ∧
    (riskLevelOf bands s = .medium ↔ bands.b1 ≤ s ∧ s < bands.b2) ∧
    (riskLevelOf bands s = .high ↔ bands.b2 ≤ s ∧ s < bands.b3) ∧
    (riskLevelOf bands s = .critical ↔ bands.b3 ≤ s) := by
  unfold riskLevelOf
  by_cases h3 : bands.b3 ≤ s
  · have hb2 : bands.b2 ≤ s := le_trans h2 h3
    have hb1 : bands.b1 ≤ s := le_trans h1 hb2
    simp [h3, not_lt.mpr hb1, not_lt.mpr hb2]
  · by_cases h4 : bands.b2 ≤ s
    · have hb1 : bands.b1 ≤ s := le_trans h1 h4
      simp [h3, h4, not_lt.mpr hb1, not_le.mp h3]
    · by_cases h5 : bands.b1 ≤ s
      · simp [h3, h4, h5, not_le.mp h4]
      · simp [h3, h4, h5, not_le.mp h5]

/-- C4 witness: with bands 2/5/8, a score exactly on the middle boundary
lands in the higher band `high`. -/
theorem risk_bands_partition_witness :
    riskLevelOf ⟨2, 5, 8⟩ 5 = .high :=
  ((risk_bands_partition ⟨2, 5, 8⟩ 5 (by norm_num) (by norm_num)).2.2.1).mpr
    (by norm_num)

/-- C8: the AuditTool upload validator rejects oversized files and
non-Excel MIME types, clearing the file input, and accepts exactly the
in-limit Excel files. -/
theorem validate_file_upload_spec (f : UploadFile) (inp : InputState) :
    (maxUploadSize < f.size ∨ f.mime ∉ allowedMimeTypes →
      validateFileUpload f inp = (false, { value := "" })) ∧
    (f.size ≤ maxUploadSize ∧ f.mime ∈ allowedMimeTypes →
      validateFileUpload f inp = (true, inp)) := by
  constructor
  · intro h
    unfold validateFileUpload
    rcases h with h | h
    · simp [h]
    · by_cases hs : maxUploadSize < f.size
      · simp [hs]
      · simp [hs, h]
  · rintro ⟨hs, hm⟩
    unfold validateFileUpload
    have h1 : ¬ maxUploadSize < f.size := not_lt.mpr hs
    simp [h1, hm]

/-- C8 witness: a small `.xlsx` file passes, leaving the input intact. -/
theorem validate_file_upload_witness :
    validateFileUpload ⟨1000, "application/vnd.ms-excel"⟩ ⟨"a.xlsx"⟩ =
      (true, ⟨"a.xlsx"⟩) :=
  (validate_file_upload_spec ⟨1000, "application/vnd.ms-excel"⟩
    ⟨"a.xlsx"⟩).2 ⟨by norm_num [maxUploadSize], by simp [allowedMimeTypes]⟩

/-- The transition table accepts exactly the next step of the linear
review order. -/
theorem allowedStep_iff_stage (s t : FState) :
    allowedStep s t = true ↔ stage t = stage s + 1 := by
  cases s <;> cases t <;> decide

/-- C6: the FindingsTracker accepts a transition iff it is the next step
of the linear order Selected → RequestedDocumentation → UnderReview →
(ExceptionNoted | Cleared) → Closed, with ExceptionNoted additionally
requiring non-empty notes; every out-of-order request — including
Selected directly to Closed and anything out of Closed — fails with
InvalidTransition. -/
theorem findings_transition_linear (f : Finding) (target : FState)
    (notes : List Char) (now : Nat) :
    ((∃ g, applyTransition f target notes now = .ok g) ↔
      (stage target = stage f.state + 1 ∧
        (target = .exceptionNoted → notes ≠ []))) ∧
    (stage target ≠ stage f.state + 1 →
      applyTransition f target notes now = .error .invalidTransition) ∧
    (f.state = .selected → target = .closed →
      applyTransition f target notes now = .error .invalidTransition) ∧
    (f.state = .closed →
      applyTransition f target notes now = .error .invalidTransition) := by
  have hstep := allowedStep_iff_stage f.state target
  have hout : stage target ≠ stage f.state + 1 →
      applyTransition f target notes now = .error .invalidTransition := by
    intro h
    have hA : allowedStep f.state target = false := by
      cases hA : allowedStep f.state target
      · rfl
      · exact absurd (hstep.mp hA) h
    unfold applyTransition
    simp [hA]
  refine ⟨?_, hout, ?_, ?_⟩
  · constructor
    · rintro ⟨g, hg⟩
      by_cases hA : allowedStep f.state target = true
      · refine ⟨hstep.mp hA, ?_⟩
        intro hx hempty
        have : applyTransition f target notes now =
            .error .emptyExceptionNotes := by
          subst hx
          unfold applyTransition
          simp [hA, hempty]
        rw [this] at hg
        exact absurd hg (by simp)
      · have hA' : allowedStep f.state target = false :=
          Bool.not_eq_true _ ▸ Bool.eq_false_iff.mpr hA
        have : applyTransition f target notes now =
            .error .invalidTransition := by
          unfold applyTransition
          simp [hA']
        rw [this] at hg
        exact absurd hg (by simp)
    · rintro ⟨hstage, hnotes⟩
      have hA : allowedStep f.state target = true := hstep.mpr hstage
      have hguard : (target == FState.exceptionNoted && notes.isEmpty) =
          false := by
        by_cases hx : target = FState.exceptionNoted
        · have : notes ≠ [] := hnotes hx
          simp [hx, List.isEmpty_iff, this]
        · simp [hx]
      refine ⟨{ f with
          state := target
          exceptionNotes :=
            if target == FState.exceptionNoted then notes
            else f.exceptionNotes
          closedAt :=
            if target == FState.closed then some now else f.closedAt }, ?_⟩
      unfold applyTransition
      simp [hA, hguard]
  · intro hsel hclo
    apply hout
    rw [hsel, hclo]
    decide
  · intro hclo
    apply hout
    rw [hclo]
    cases target <;> decide

/-- C6 witness: from Selected, a request to jump straight to Closed fails
with InvalidTransition. -/
theorem findings_transition_witness :
    applyTransition ⟨1, .selected, [], none⟩ .closed [] 0 =
      .error .invalidTransition :=
  (findings_transition_linear ⟨1, .selected, [], none⟩ .closed [] 0).2.2.1
    rfl rfl

/-- C9: when no file of the Securities Deposits upload run yields
`processed_records > 0` — including a run where every upload throws — the
displayed message is still the "uploaded successfully" info banner; no
top-level failure message exists, and per-file errors appear only as
detail lines under that banner. -/
theorem upload_message_always_success
    (files : List (String × UploadOutcome))
    (h : ∀ f ∈ files, processedOf f.2 = 0) :
    resultMessage files =
      infoBanner files.length ++
        (if 0 < (warningsOf files).length then
          "\n\n📋 Details:\n" ++ detailLines (warningsOf files)
        else "") ∧
    (∀ f ∈ files, ∀ m, f.2 = .err m →
      (f.1, m.getD "Upload failed") ∈ warningsOf files) := by
  have hsc : successCount files = 0 := by
    unfold successCount
    rw [List.length_eq_zero, List.filter_eq_nil_iff]
    intro f hf
    simp [h f hf]
  constructor
  · unfold resultMessage
    rw [hsc]
    by_cases hw : 0 < (warningsOf files).length
    · simp [hw, String.append_assoc]
    · simp [hw]
  · intro f hf m hm
    unfold warningsOf
    rw [List.mem_filterMap]
    exact ⟨f, hf, by rw [hm]⟩

/-- C9 witness: a run whose only file upload threw still reports the
files as uploaded successfully, with the error as a detail line. -/
theorem upload_message_witness :
    resultMessage demoUploads =
      infoBanner demoUploads.length ++
        (if 0 < (warningsOf demoUploads).length then
          "\n\n📋 Details:\n" ++ detailLines (warningsOf demoUploads)
        else "") ∧
    (∀ f ∈ demoUploads, ∀ m, f.2 = .err m →
      (f.1, m.getD "Upload failed") ∈ warningsOf demoUploads) :=
  upload_message_always_success demoUploads (by decide)

/-- C5: the RiskScorer is pure and order-independent — scoring any
permutation of the population permutes the assessments accordingly, and
every transaction's assessment is the same pure function of the
transaction, the population statistics and the rule configuration in
either run. -/
theorem risk_scorer_order_independent (stats : PopulationStats)
    (cfg : RuleConfig) (l₁ l₂ : List Transaction) (h : l₁.Perm l₂) :
    (scoreAll l₁ stats cfg).Perm (scoreAll l₂ stats cfg) ∧
    (∀ t ∈ l₁, scoreTxn t stats cfg ∈ scoreAll l₁ stats cfg ∧
      scoreTxn t stats cfg ∈ scoreAll l₂ stats cfg) := by
  constructor
  · exact h.map _
  · intro t ht
    exact ⟨List.mem_map_of_mem _ ht,
      List.mem_map_of_mem _ (h.mem_iff.mp ht)⟩

/-- C5 witness: swapping two concrete transactions permutes the
assessments and keeps each transaction's assessment present. -/
theorem risk_scorer_witness :
    (scoreAll [mkT 0 50, mkT 1 120] ⟨2, 170, 120, [], []⟩
        ⟨[], 1, 0, 0, 1, 1, 100, 1, 1, ⟨1, 2, 3⟩⟩).Perm
      (scoreAll [mkT 1 120, mkT 0 50] ⟨2, 170, 120, [], []⟩
        ⟨[], 1, 0, 0, 1, 1, 100, 1, 1, ⟨1, 2, 3⟩⟩) ∧
    (∀ t ∈ [mkT 0 50, mkT 1 120],
      scoreTxn t ⟨2, 170, 120, [], []⟩ ⟨[], 1, 0, 0, 1, 1, 100, 1, 1, ⟨1, 2, 3⟩⟩ ∈
        scoreAll [mkT 0 50, mkT 1 120] ⟨2, 170, 120, [], []⟩
          ⟨[], 1, 0, 0, 1, 1, 100, 1, 1, ⟨1, 2, 3⟩⟩ ∧
      scoreTxn t ⟨2, 170, 120, [], []⟩ ⟨[], 1, 0, 0, 1, 1, 100, 1, 1, ⟨1, 2, 3⟩⟩ ∈
        scoreAll [mkT 1 120, mkT 0 50] ⟨2, 170, 120, [], []⟩
          ⟨[], 1, 0, 0, 1, 1, 100, 1, 1, ⟨1, 2, 3⟩⟩) :=
  risk_scorer_order_independent ⟨2, 170, 120, [], []⟩
    ⟨[], 1, 0, 0, 1, 1, 100, 1, 1, ⟨1, 2, 3⟩⟩
    [mkT 0 50, mkT 1 120] [mkT 1 120, mkT 0 50] (List.Perm.swap _ _ _)

/-- The warnings collected by `splitRows` are exactly one per rejected
row. -/
theorem splitRows_warn_length (rows : List IngestRow) :
    ∀ i, ((splitRows i rows).2).length =
      (rows.filter (fun r => !exceptOk (parseRow r))).length := by
  induction rows with
  | nil => intro i; rfl
  | cons r rest ih =>
      intro i
      unfold splitRows
      cases hp : parseRow r with
      | ok d => simp [hp, ih (i + 1), exceptOk]
      | error m => simp [hp, ih (i + 1), exceptOk]

/-- `splitRows` accounts for every input row: normalized plus rejected
equals total. -/
theorem splitRows_total (rows : List IngestRow) :
    ∀ i, ((splitRows i rows).1).length + ((splitRows i rows).2).length =
      rows.length := by
  induction rows with
  | nil => intro i; rfl
  | cons r rest ih =>
      intro i
      unfold splitRows
      cases hp : parseRow r with
      | ok d =>
          simp only [hp]
          have := ih (i + 1)
          simp [this]
          omega
      | error m =>
          simp only [hp]
          have := ih (i + 1)
          simp [this]
          omega

/-- Every rejected row leaves a warning carrying its absolute row
index. -/
theorem splitRows_warn_mem (rows : List IngestRow) :
    ∀ i j r, rows[j]? = some r → exceptOk (parseRow r) = false →
      ∃ w ∈ (splitRows i rows).2, w.rowIndex = i + j := by
  induction rows with
  | nil => intro i j r hj; simp at hj
  | cons hd rest ih =>
      intro i j r hj hrej
      cases j with
      | zero =>
          simp at hj
          subst hj
          cases hp : parseRow hd with
          | ok d => rw [hp] at hrej; simp [exceptOk] at hrej
          | error m =>
              refine ⟨⟨i, m⟩, ?_, by simp⟩
              unfold splitRows
              simp [hp]
      | succ j' =>
          simp at hj
          obtain ⟨w, hw, hidx⟩ := ih (i + 1) j' r hj hrej
          refine ⟨w, ?_, by omega⟩
          unfold splitRows
          cases hp : parseRow hd with
          | ok d => simpa [hp] using hw
          | error m => simp [hp]; exact Or.inr hw

/-- C7: the Normalizer aborts the whole batch with IngestionAborted
exactly when the fraction of unparseable rows exceeds the configured
minimum viable fraction; otherwise it returns the normalized rows with
one collected warning per rejected row, and every rejected row leaves a
warning entry carrying its row index. -/
theorem normalizer_batch_failure (rows : List IngestRow)
    (cfg : IngestConfig) :
    ((∃ e, normalizeBatch rows cfg = .error e) ↔
      cfg.maxRejectFraction * (rows.length : Rat) <
        (rejectCount rows : Rat)) ∧
    (∀ txs warns, normalizeBatch rows cfg = .ok (txs, warns) →
      warns.length = rejectCount rows ∧
      txs.length + warns.length = rows.length ∧
      (∀ j r, rows[j]? = some r → exceptOk (parseRow r) = false →
        ∃ w ∈ warns, w.rowIndex = j)) := by
  by_cases hc : cfg.maxRejectFraction * (rows.length : Rat) <
      (rejectCount rows : Rat)
  · constructor
    · constructor
      · intro _
        exact hc
      · intro _
        exact ⟨.ingestionAborted, by simp [normalizeBatch, hc]⟩
    · intro txs warns h
      simp [normalizeBatch, hc] at h
  · constructor
    · simp [normalizeBatch, hc]
    · intro txs warns h
      simp [normalizeBatch, hc] at h
      have hw : warns = (splitRows 0 rows).2 := by rw [h]
      have ht : txs = (splitRows 0 rows).1 := by rw [h]
      subst hw
      subst ht
      refine ⟨?_, ?_, ?_⟩
      · rw [splitRows_warn_length rows 0]
        rfl
      · exact splitRows_total rows 0
      · intro j r hj hrej
        have := splitRows_warn_mem rows 0 j r hj hrej
        simpa using this

/-- C7 witness: a two-row batch with one unparseable row stays under a
50% reject threshold — the run succeeds with exactly one warning. -/
theorem normalizer_batch_witness :
    ([demoWarn].length = rejectCount [demoRowOk, demoRowBad]) ∧
    ([demoTxnOk].length + [demoWarn].length =
      [demoRowOk, demoRowBad].length) := by
  have hrc : rejectCount [demoRowOk, demoRowBad] = 1 := by decide
  have hsplit : splitRows 0 [demoRowOk, demoRowBad] =
      ([demoTxnOk], [demoWarn]) := by decide
  have hcond : ¬ (((⟨1⟩ : IngestConfig).maxRejectFraction *
      (([demoRowOk, demoRowBad] : List IngestRow).length : Rat)) <
      (rejectCount [demoRowOk, demoRowBad] : Rat)) := by
    rw [hrc]
    norm_num
  have hok : normalizeBatch [demoRowOk, demoRowBad] ⟨1⟩ =
      .ok ([demoTxnOk], [demoWarn]) := by
    unfold normalizeBatch
    rw [if_neg hcond, hsplit]
  have h := (normalizer_batch_failure [demoRowOk, demoRowBad] ⟨1⟩).2
    [demoTxnOk] [demoWarn] hok
  exact ⟨h.1, h.2.1⟩

/-- C10: sortTable reorders the tbody rows as a permutation — no row is
added, removed or duplicated — and compares a pair numerically when both
stripped cell values parse as numbers, lexicographically otherwise. -/
theorem sort_table_permutes (rows : List TableRow) (idx : Nat) :
    (sortTable rows idx).Perm rows ∧
    (∀ a b x y,
      jsParseFloat (stripNonNumeric (cellText a idx)) = some x →
      jsParseFloat (stripNonNumeric (cellText b idx)) = some y →
      (rowRel idx a b ↔ x ≤ y)) ∧
    (∀ a b,
      (jsParseFloat (stripNonNumeric (cellText a idx)) = none ∨
       jsParseFloat (stripNonNumeric (cellText b idx)) = none) →
      (rowRel idx a b ↔ lexLe (cellText a idx) (cellText b idx) = true)) := by
  refine ⟨List.perm_insertionSort _ _, ?_, ?_⟩
  · intro a b x y hx hy
    unfold rowRel rowLEb
    rw [hx, hy]
    simp
  · intro a b h
    unfold rowRel rowLEb
    rcases h with h | h
    · rw [h]
    · rw [h]
      cases ha : jsParseFloat (stripNonNumeric (cellText a idx)) <;>
        exact Iff.rfl

/-- C10 witness: two currency cells strip to 90 and 1100 and are compared
numerically; the sorted table is a permutation of the input. -/
theorem sort_table_witness :
    (sortTable [demoRowA, demoRowB] 0).Perm [demoRowA, demoRowB] ∧
    (rowRel 0 demoRowA demoRowB ↔ (90 : Rat) ≤ 1100) :=
  ⟨(sort_table_permutes [demoRowA, demoRowB] 0).1,
   (sort_table_permutes [demoRowA, demoRowB] 0).2.1 demoRowA demoRowB 90 1100
     (by decide) (by decide)⟩

/-- `isHighRisk` detects exactly the high and critical levels. -/
theorem isHighRisk_iff (lv : RiskLevel) :
    isHighRisk lv = true ↔ lv = .high ∨ lv = .critical := by
  cases lv <;> simp [isHighRisk]

/-- The mandatory-inclusion test holds exactly for the §4.4 step-1
criteria. -/
theorem mandatoryB_iff (p : SamplingPolicy) (A : List RiskAssessment)
    (t : Transaction) :
    mandatoryB p A t = true ↔
      (p.materialityThreshold ≤ t.amount ∨
        riskOf A t.id = .high ∨ riskOf A t.id = .critical) := by
  unfold mandatoryB
  rw [Bool.or_eq_true, decide_eq_true_iff, isHighRisk_iff]

/-- With unique ids, looking a member's id back up in the population
finds that member. -/
theorem find_id_self (ts : List Transaction)
    (hnd : (ts.map Transaction.id).Nodup) (t : Transaction) (ht : t ∈ ts) :
    ts.find? (fun u => u.id == t.id) = some t := by
  induction ts with
  | nil => simp at ht
  | cons u rest ih =>
      rw [List.map_cons] at hnd
      rcases List.mem_cons.mp ht with rfl | hmem
      · exact List.find?_cons_of_pos _ (by simp)
      · have hne : (u.id == t.id) = false := by
          simp only [beq_eq_false_iff_ne, ne_eq]
          intro he
          exact (List.nodup_cons.mp hnd).1
            (he ▸ List.mem_map_of_mem Transaction.id hmem)
        rw [List.find?_cons_of_neg _ (by simp [hne])]
        exact ih (List.nodup_cons.mp hnd).2 hmem

/-- `absSum` of the empty population. -/
theorem absSum_nil : absSum [] = 0 := rfl

/-- `absSum` of a cons. -/
theorem absSum_cons (t : Transaction) (l : List Transaction) :
    absSum (t :: l) = |t.amount| + absSum l := by
  simp [absSum]

/-- `absSum` distributes over append. -/
theorem absSum_append (l₁ l₂ : List Transaction) :
    absSum (l₁ ++ l₂) = absSum l₁ + absSum l₂ := by
  simp [absSum]

/-- `absSum` is invariant under permutation. -/
theorem absSum_perm {l₁ l₂ : List Transaction} (h : l₁.Perm l₂) :
    absSum l₁ = absSum l₂ :=
  (h.map _).sum_eq

/-- The supplemental fill never takes anything outside the remaining
population. -/
theorem fillTake_sublist (tgt : Rat) :
    ∀ (l : List Transaction) (cov : Rat), (fillTake tgt cov l).Sublist l := by
  intro l
  induction l with
  | nil => intro cov; simp [fillTake]
  | cons t rest ih =>
      intro cov
      unfold fillTake
      by_cases hc : tgt ≤ cov
      · simp [hc]
      · rw [if_neg hc]
        exact (ih _).cons₂ t

/-- If the fill stops below the target, it has consumed the whole
remaining population. -/
theorem fillTake_exhaust (tgt : Rat) :
    ∀ (l : List Transaction) (cov : Rat),
      cov + absSum (fillTake tgt cov l) < tgt → fillTake tgt cov l = l := by
  intro l
  induction l with
  | nil => intro cov _; rfl
  | cons t rest ih =>
      intro cov h
      unfold fillTake at h ⊢
      by_cases hc : tgt ≤ cov
      · rw [if_pos hc] at h
        rw [absSum_nil] at h
        exact absurd hc (not_le.mpr (by linarith))
      · rw [if_neg hc] at h ⊢
        rw [absSum_cons] at h
        have := ih (cov + |t.amount|) (by linarith)
        rw [this]

/-- The ids of the mandatory set stay duplicate-free. -/
theorem mand_ids_nodup (ts : List Transaction) (A : List RiskAssessment)
    (p : SamplingPolicy) (hnd : (ts.map Transaction.id).Nodup) :
    ((mandList ts A p).map Transaction.id).Nodup :=
  List.Nodup.sublist ((List.filter_sublist ts).map Transaction.id) hnd

/-- Members of the sorted mandatory pass belong to the mandatory set. -/
theorem mem_sortedMand (ts : List Transaction) (A : List RiskAssessment)
    (p : SamplingPolicy) (t : Transaction) :
    t ∈ sortedMand ts A p ↔ t ∈ mandList ts A p :=
  (List.perm_insertionSort mandLE (mandList ts A p)).mem_iff

/-- Everything the supplemental fill takes is a non-mandatory member of
the population. -/
theorem fillTaken_mem (ts : List Transaction) (A : List RiskAssessment)
    (p : SamplingPolicy) (t : Transaction) (ht : t ∈ fillTaken ts A p) :
    t ∈ ts ∧ mandatoryB p A t = false := by
  have h1 : t ∈ restOrder ts A p :=
    (fillTake_sublist _ _ _).mem ht
  have h2 : t ∈ ts.filter (fun u => !(mandatoryB p A u)) :=
    (List.perm_insertionSort (fillLE p.randomSeed) _).mem_iff.mp h1
  obtain ⟨hmem, hflag⟩ := List.mem_filter.mp h2
  exact ⟨hmem, by simpa using hflag⟩

/-- The member-id sequence of a sample splits into the mandatory ids and
the fill ids. -/
theorem select_members_fst (ts : List Transaction)
    (A : List RiskAssessment) (p : SamplingPolicy) :
    (selectSample ts A p).members.map Prod.fst =
      (sortedMand ts A p).map Transaction.id ++
        (fillTaken ts A p).map Transaction.id := by
  simp only [selectSample, List.map_append, List.map_map]
  rfl

/-- C1: every transaction at or above the materiality threshold or with
high/critical risk is a member of the selected Sample; one satisfying
both criteria is included exactly once and stored with the reason
`above_materiality`. -/
theorem sample_mandatory_complete (ts : List Transaction)
    (A : List RiskAssessment) (p : SamplingPolicy)
    (hnd : (ts.map Transaction.id).Nodup) (t : Transaction) (ht : t ∈ ts)
    (hcrit : p.materialityThreshold ≤ t.amount ∨
      riskOf A t.id = .high ∨ riskOf A t.id = .critical) :
    t.id ∈ (selectSample ts A p).members.map Prod.fst ∧
    (p.materialityThreshold ≤ t.amount ∧
        (riskOf A t.id = .high ∨ riskOf A t.id = .critical) →
      ((t.id, Reason.above_materiality) ∈ (selectSample ts A p).members ∧
        ((selectSample ts A p).members.map Prod.fst).count t.id = 1)) := by
  have hmB : mandatoryB p A t = true := (mandatoryB_iff p A t).mpr hcrit
  have hmem : t ∈ mandList ts A p := List.mem_filter.mpr ⟨ht, hmB⟩
  have hmemS : t ∈ sortedMand ts A p := (mem_sortedMand ts A p t).mpr hmem
  constructor
  · rw [select_members_fst]
    exact List.mem_append_left _ (List.mem_map_of_mem Transaction.id hmemS)
  · rintro ⟨hthr, _⟩
    have hreason : reasonOf p t = .above_materiality := if_pos hthr
    constructor
    · have : (t.id, reasonOf p t) ∈
          (sortedMand ts A p).map (fun u => (u.id, reasonOf p u)) :=
        List.mem_map_of_mem _ hmemS
      rw [hreason] at this
      exact List.mem_append_left _ this
    · rw [select_members_fst, List.count_append]
      have hcm : ((sortedMand ts A p).map Transaction.id).count t.id = 1 := by
        have hperm : ((sortedMand ts A p).map Transaction.id).Perm
            ((mandList ts A p).map Transaction.id) :=
          (List.perm_insertionSort mandLE (mandList ts A p)).map _
        rw [hperm.count_eq]
        exact List.count_eq_one_of_mem (mand_ids_nodup ts A p hnd)
          (List.mem_map_of_mem Transaction.id hmem)
      have hcf : ((fillTaken ts A p).map Transaction.id).count t.id = 0 := by
        apply List.count_eq_zero_of_not_mem
        intro hin
        obtain ⟨u, hu, huid⟩ := List.mem_map.mp hin
        obtain ⟨humem, huB⟩ := fillTaken_mem ts A p u hu
        have : u = t := List.inj_on_of_nodup_map hnd humem ht huid
        rw [this] at huB
        rw [huB] at hmB
        exact absurd hmB (by simp)
      rw [hcm, hcf]

/-- C1 witness: in the §8 scenario population, the 9000 transaction meets
both criteria; it is sampled exactly once with `above_materiality`. -/
theorem sample_mandatory_witness :
    (mkT 2 9000).id ∈ (selectSample demoTs demoA demoP).members.map Prod.fst ∧
    (((mkT 2 9000).id, Reason.above_materiality) ∈
        (selectSample demoTs demoA demoP).members ∧
      ((selectSample demoTs demoA demoP).members.map Prod.fst).count
        (mkT 2 9000).id = 1) :=
  ⟨(sample_mandatory_complete demoTs demoA demoP (by decide) (mkT 2 9000)
      (by decide) (Or.inl (by decide))).1,
   (sample_mandatory_complete demoTs demoA demoP (by decide) (mkT 2 9000)
      (by decide) (Or.inl (by decide))).2 ⟨by decide, Or.inr (by decide)⟩⟩

/-- With unique ids, the dollar value of the sample's members equals the
covered amount tracked by the selector. -/
theorem memberValue_select (ts : List Transaction)
    (A : List RiskAssessment) (p : SamplingPolicy)
    (hnd : (ts.map Transaction.id).Nodup) :
    memberValue ts (selectSample ts A p) = finalCovered ts A p := by
  have habs : ∀ u ∈ ts, absAmountOf ts u.id = |u.amount| := by
    intro u hu
    unfold absAmountOf
    rw [find_id_self ts hnd u hu]
  have hmand : ∀ u ∈ sortedMand ts A p, absAmountOf ts u.id = |u.amount| := by
    intro u hu
    exact habs u (List.mem_filter.mp ((mem_sortedMand ts A p u).mp hu)).1
  have hfill : ∀ u ∈ fillTaken ts A p, absAmountOf ts u.id = |u.amount| := by
    intro u hu
    exact habs u (fillTaken_mem ts A p u hu).1
  unfold memberValue
  rw [show (selectSample ts A p).members =
      (sortedMand ts A p).map (fun u => (u.id, reasonOf p u)) ++
        (fillTaken ts A p).map (fun u => (u.id, Reason.random_fill))
    from rfl]
  rw [List.map_append, List.sum_append, List.map_map, List.map_map]
  have h1 : List.map ((fun m : Nat × Reason => absAmountOf ts m.1) ∘
        fun u => (u.id, reasonOf p u)) (sortedMand ts A p) =
      List.map (fun u => |u.amount|) (sortedMand ts A p) :=
    List.map_congr_left (fun u hu => hmand u hu)
  have h2 : List.map ((fun m : Nat × Reason => absAmountOf ts m.1) ∘
        fun u => (u.id, Reason.random_fill)) (fillTaken ts A p) =
      List.map (fun u => |u.amount|) (fillTaken ts A p) :=
    List.map_congr_left (fun u hu => hfill u hu)
  rw [h1, h2]
  have h3 : (List.map (fun u => |u.amount|) (sortedMand ts A p)).sum =
      coveredMand ts A p :=
    absSum_perm (List.perm_insertionSort mandLE (mandList ts A p))
  rw [h3]
  rfl

/-- C2: without the warning flag, the Sample covers at least the coverage
target in dollars; with the flag, actual coverage is below target and the
whole population has been consumed; members always refer to existing
population ids. -/
theorem sample_coverage (ts : List Transaction) (A : List RiskAssessment)
    (p : SamplingPolicy) (hnd : (ts.map Transaction.id).Nodup) :
    ((selectSample ts A p).warning = false →
      targetAmt ts p ≤ memberValue ts (selectSample ts A p)) ∧
    ((selectSample ts A p).warning = true →
      memberValue ts (selectSample ts A p) < targetAmt ts p ∧
      ∀ t ∈ ts, t.id ∈ (selectSample ts A p).members.map Prod.fst) ∧
    (∀ m ∈ (selectSample ts A p).members, m.1 ∈ ts.map Transaction.id) := by
  have hMV := memberValue_select ts A p hnd
  have hwarn : (selectSample ts A p).warning =
      decide (finalCovered ts A p < targetAmt ts p) := rfl
  refine ⟨?_, ?_, ?_⟩
  · intro hw
    rw [hwarn] at hw
    have := of_decide_eq_false hw
    rw [hMV]
    exact not_lt.mp this
  · intro hw
    rw [hwarn] at hw
    have hlt : finalCovered ts A p < targetAmt ts p := of_decide_eq_true hw
    constructor
    · rw [hMV]
      exact hlt
    · have hexh : fillTaken ts A p = restOrder ts A p := by
        unfold fillTaken
        exact fillTake_exhaust _ _ _ hlt
      intro t ht
      rw [select_members_fst]
      by_cases hm : mandatoryB p A t = true
      · apply List.mem_append_left
        exact List.mem_map_of_mem Transaction.id
          ((mem_sortedMand ts A p t).mpr (List.mem_filter.mpr ⟨ht, hm⟩))
      · apply List.mem_append_right
        apply List.mem_map_of_mem Transaction.id
        rw [hexh]
        exact (List.perm_insertionSort (fillLE p.randomSeed) _).mem_iff.mpr
          (List.mem_filter.mpr ⟨ht, by simp [hm]⟩)
  · intro m hm
    rcases List.mem_append.mp hm with hm' | hm'
    · obtain ⟨u, hu, rfl⟩ := List.mem_map.mp hm'
      exact List.mem_map_of_mem Transaction.id
        (List.mem_filter.mp ((mem_sortedMand ts A p u).mp hu)).1
    · obtain ⟨u, hu, rfl⟩ := List.mem_map.mp hm'
      exact List.mem_map_of_mem Transaction.id (fillTaken_mem ts A p u hu).1

/-- C2 witness: instantiated for the §8 scenario population and policy. -/
theorem sample_coverage_witness :
    ((selectSample demoTs demoA demoP).warning = false →
      targetAmt demoTs demoP ≤
        memberValue demoTs (selectSample demoTs demoA demoP)) ∧
    ((selectSample demoTs demoA demoP).warning = true →
      memberValue demoTs (selectSample demoTs demoA demoP) <
        targetAmt demoTs demoP ∧
      ∀ t ∈ demoTs,
        t.id ∈ (selectSample demoTs demoA demoP).members.map Prod.fst) ∧
    (∀ m ∈ (selectSample demoTs demoA demoP).members,
      m.1 ∈ demoTs.map Transaction.id) :=
  sample_coverage demoTs demoA demoP (by decide)

/-- C3: the selector is deterministic — the implementation satisfies the
extensional run description, and any two runs over the same transactions,
assessments and policy (with its fixed random seed) produce the same
Sample membership and ordering. -/
theorem select_deterministic (ts : List Transaction)
    (A : List RiskAssessment) (p : SamplingPolicy)
    (hnd : (ts.map Transaction.id).Nodup) :
    Selects ts A p (selectSample ts A p) ∧
    (∀ s₁ s₂, Selects ts A p s₁ → Selects ts A p s₂ → s₁ = s₂) := by
  constructor
  · refine ⟨sortedMand ts A p,
      List.perm_insertionSort mandLE (mandList ts A p), ?_, rfl⟩
    have hs : List.Pairwise mandLE (sortedMand ts A p) :=
      List.sorted_insertionSort mandLE (mandList ts A p)
    have hnodup : ((sortedMand ts A p).map Transaction.id).Nodup :=
      (((List.perm_insertionSort mandLE
          (mandList ts A p)).map Transaction.id).symm).nodup
        (mand_ids_nodup ts A p hnd)
    have hne : List.Pairwise
        (fun a b : Transaction => a.id ≠ b.id) (sortedMand ts A p) :=
      List.pairwise_map.mp hnodup
    refine (hs.and hne).imp ?_
    rintro a b ⟨hle, hne'⟩
    rcases hle with h | ⟨h1, h2⟩
    · exact Or.inl h
    · exact Or.inr ⟨h1, lt_of_le_of_ne h2 hne'⟩
  · rintro s₁ s₂ ⟨m₁, hp₁, hs₁, rfl⟩ ⟨m₂, hp₂, hs₂, rfl⟩
    have hm : m₁ = m₂ :=
      List.eq_of_perm_of_sorted (hp₁.trans hp₂.symm) hs₁ hs₂
    rw [hm]

/-- C3 witness: instantiated for the §8 scenario inputs. -/
theorem select_deterministic_witness :
    Selects demoTs demoA demoP (selectSample demoTs demoA demoP) ∧
    (∀ s₁ s₂, Selects demoTs demoA demoP s₁ →
      Selects demoTs demoA demoP s₂ → s₁ = s₂) :=
  select_deterministic demoTs demoA demoP (by decide)
